import Mathlib

set_option maxHeartbeats 1000000

/-!
Shallow embedding of `src/roster-printer.py` and proofs about its
column transformer, source locator, session partitioner, document
renderer and configuration checks.

Conventions: a pandas cell is `Option String` (`none` models NaN /
missing); a `DataFrame` is a `Table` of named columns over rows of
cells; a Python exception is the `Except.error` branch.
-/

/-- A table cell; `none` models a missing value (pandas `NaN`). -/
abbrev Cell := Option String

/-- String rendering of a cell: missing values render as the empty string
(`row.cell("")` in `roster_to_pdf`), present ones as themselves
(`astype(str)` on a string value is the identity). -/
def cellText : Cell → String
  | none => ""
  | some s => s

/-- A roster table: an ordered list of column names and an ordered list of
rows, each row holding one cell per column. -/
structure Table where
  cols : List String
  rows : List (List Cell)
deriving DecidableEq, Repr

/-- Value of column `c` in a row `r` laid out along the column list `cols`
(the cell at the index of the first occurrence of `c`). -/
def rowVal (cols : List String) (r : List Cell) (c : String) : Cell :=
  match cols.findIdx? (fun x => x == c) with
  | some i => r.getD i none
  | none => none

/-- All values of column `c` of table `t`, or `none` when the column is
absent (pandas raises `KeyError`). -/
def colValues (t : Table) (c : String) : Option (List Cell) :=
  if t.cols.contains c then some (t.rows.map (fun r => rowVal t.cols r c)) else none

/-! ### Column Transformer (`modify-columns` loop, lines 234-244) -/

/-- One `modify-columns` entry from the configuration: keys `new-name`,
`old-columns` and `separator`. -/
structure MergeRule where
  newName : String
  oldColumns : List String
  separator : String
deriving DecidableEq, Repr

/-- Row-wise merged value: `separator.join(x.dropna().astype(str))` on the
row's `old-columns` values (line 242). -/
def mergeValue (sep : String) (vals : List Cell) : String :=
  String.intercalate sep (vals.filterMap id)

/-- One iteration of the `modify-columns` loop: raise `ValueError` when
`new-name` is already a column (line 237-238), raise `KeyError` when an
`old-columns` entry is absent (the pandas column selection on line 241),
otherwise assign the merged series to a new column, which pandas appends
after all existing columns. -/
def applyRule (t : Table) (r : MergeRule) : Except String Table :=
  if t.cols.contains r.newName then
    Except.error ("ValueError: new column name " ++ r.newName ++ " already exists in roster")
  else if r.oldColumns.all (fun c => t.cols.contains c) then
    Except.ok
      { cols := t.cols ++ [r.newName]
        rows := t.rows.map (fun row =>
          row ++ [some (mergeValue r.separator (r.oldColumns.map (rowVal t.cols row)))]) }
  else
    Except.error "KeyError: old column absent"

/-- The whole `modify-columns` loop: rules apply sequentially, the first
failure aborts the run. -/
def applyRules : Table → List MergeRule → Except String Table
  | t, [] => Except.ok t
  | t, r :: rs =>
    match applyRule t r with
    | Except.ok t' => applyRules t' rs
    | Except.error m => Except.error m

example : applyRule { cols := ["First", "Last"], rows := [[some "Ann", some "Lee"]] }
    { newName := "Name", oldColumns := ["First", "Last"], separator := " " }
    = Except.ok { cols := ["First", "Last", "Name"],
                  rows := [[some "Ann", some "Lee", some "Ann Lee"]] } := rfl

example : applyRule { cols := ["First", "Last"], rows := [[some "Ann", none]] }
    { newName := "Name", oldColumns := ["First", "Last"], separator := " " }
    = Except.ok { cols := ["First", "Last", "Name"],
                  rows := [[some "Ann", none, some "Ann"]] } := rfl

/-! ### Source Locator (`find_latest_spreadsheet`, lines 33-55) -/

/-- One entry of the scanned directory: its file name and its
last-modified timestamp. -/
structure DirEntry where
  name : String
  mtime : Int
deriving DecidableEq, Repr

/-- Boolean test that the character list `hay` starts with `pat`. -/
def startsWithL : List Char → List Char → Bool
  | _, [] => true
  | [], _ :: _ => false
  | a :: as, b :: bs => a == b && startsWithL as bs

/-- Boolean test that `pat` occurs contiguously inside `hay`. -/
def hasSubL : List Char → List Char → Bool
  | [], pat => pat.isEmpty
  | a :: as, pat => startsWithL (a :: as) pat || hasSubL as pat

/-- Python's case-sensitive `search_str in filename` test (line 43). -/
def strContains (hay pat : String) : Bool :=
  hasSubL hay.data pat.data

example : strContains "A_roster_v2.csv" "roster" = true := by decide
example : strContains "A_Roster.csv" "roster" = false := by decide
example : strContains "abc" "" = true := by decide

/-- The scanning loop of `find_latest_spreadsheet`: `newest` holds the best
entry so far (`none` models the initial empty string `newest_file = ""`),
and a matching entry replaces it exactly when `newest` is still empty or
the entry's mtime is strictly greater (lines 42-51). -/
def findLoop (s : String) (newest : Option DirEntry) : List DirEntry → Option DirEntry
  | [] => newest
  | f :: fs =>
    if strContains f.name s then
      match newest with
      | none => findLoop s (some f) fs
      | some b => if f.mtime > b.mtime then findLoop s (some f) fs else findLoop s (some b) fs
    else
      findLoop s newest fs

/-- Result of `find_latest_spreadsheet(search_dir, search_str)` on a
directory listing; `none` models the empty-string return value when no
entry matches. -/
def find_latest_spreadsheet (files : List DirEntry) (s : String) : Option DirEntry :=
  findLoop s none files

example :
    find_latest_spreadsheet
      [⟨"A_roster.csv", 10⟩, ⟨"notes.txt", 99⟩, ⟨"A_roster_v2.csv", 20⟩] "roster"
      = some ⟨"A_roster_v2.csv", 20⟩ := by decide

example :
    find_latest_spreadsheet [⟨"a_roster.csv", 5⟩, ⟨"b_roster.csv", 5⟩] "roster"
      = some ⟨"a_roster.csv", 5⟩ := by decide

/-! ### Required configuration keys (`check_for_required_config`, lines 58-73) -/

/-- The `required_keys` list of `check_for_required_config` (lines 61-66). -/
def requiredKeys : List String :=
  ["spreadsheet-pattern", "columns-to-print", "class-column-name", "search-dir"]

/-- Model of `check_for_required_config`: iterate `required_keys` in order
and raise `KeyError` at the first one absent from the configuration's
keys (lines 68-71). -/
def check_for_required_config (cfgKeys : List String) : Except String Unit :=
  match requiredKeys.find? (fun k => !cfgKeys.contains k) with
  | some k => Except.error ("Required config `" ++ k ++ "` not found, check that file "
      ++ "at CONFIG_FILE contains key")
  | none => Except.ok ()

/-! ### Session Partitioner (`print_all_sessions`, lines 158-189) -/

/-- First-seen-order deduplication, the behaviour of
`pd.unique(roster[class_col].values)` (line 168). -/
def uniqueVals (l : List Cell) : List Cell :=
  l.foldl (fun acc v => if acc.contains v then acc else acc ++ [v]) []

example : uniqueVals [some "A", some "A", some "B"] = [some "A", some "B"] := by decide

/-- The per-session loop of `print_all_sessions`: raise `KeyError` when
the class column is absent (line 168); for each first-seen distinct class
value, take the rows whose class value equals it, in original order
(`roster.query(... == @session)`), and project them to `columns-to-print`,
raising `KeyError` inside the loop when a projected column is absent
(line 171). Each group is returned as the pair of its key and its
sub-table. -/
def sessionLoop (t : Table) (classCol : String) (toPrint : List String) :
    List Cell → Except String (List (Cell × Table))
  | [] => Except.ok []
  | k :: ks =>
    if toPrint.all (fun c => t.cols.contains c) then
      match sessionLoop t classCol toPrint ks with
      | Except.ok rest =>
        Except.ok ((k,
          { cols := toPrint
            rows := (t.rows.filter (fun r => rowVal t.cols r classCol == k)).map
              (fun r => toPrint.map (rowVal t.cols r)) }) :: rest)
      | Except.error m => Except.error m
    else Except.error "KeyError: projected column absent"

/-- Entry point of the partitioner: check the class column exists, then
run the per-session loop over the first-seen distinct class values. -/
def partition (t : Table) (classCol : String) (toPrint : List String) :
    Except String (List (Cell × Table)) :=
  if t.cols.contains classCol then
    sessionLoop t classCol toPrint
      (uniqueVals (t.rows.map (fun r => rowVal t.cols r classCol)))
  else Except.error "KeyError: class column absent"

example :
    partition { cols := ["Name", "Class"],
                rows := [[some "x", some "A"], [some "y", some "A"], [some "z", some "B"]] }
      "Class" ["Name"]
      = Except.ok
          [(some "A", { cols := ["Name"], rows := [[some "x"], [some "y"]] }),
           (some "B", { cols := ["Name"], rows := [[some "z"]] })] := rfl

/-! ### Document Renderer table loop (`roster_to_pdf`, lines 105-138) -/

/-- A wall-clock instant as broken-down fields; the year is the two-digit
`%y` field. -/
structure DateTime where
  month : Nat
  day : Nat
  year2 : Nat
  hour : Nat
  minute : Nat
  second : Nat
deriving DecidableEq, Repr

/-- Two-digit zero-padded numeric field of `strftime`. -/
def pad2 (n : Nat) : String :=
  if n < 10 then "0" ++ toString n else toString n

/-- The timestamp format `"%m/%d/%y, %H:%M:%S"` used for both the print
time and the data-modified time (lines 78-79). -/
def fmtTimestamp (d : DateTime) : String :=
  pad2 d.month ++ "/" ++ pad2 d.day ++ "/" ++ pad2 d.year2 ++ ", "
    ++ pad2 d.hour ++ ":" ++ pad2 d.minute ++ ":" ++ pad2 d.second

/-- The footer string of `roster_to_pdf` (lines 81-86): the segments
enabled by `show-print-date` and `show-modified-time`, in that order,
joined with `", "`; both disabled leaves the empty string, so the footer
cell prints nothing. -/
def footerStr (showPrintDate showModifiedTime : Bool) (printTime modTime : String) : String :=
  String.intercalate ", "
    ((if showPrintDate then ["Print time: " ++ printTime] else [])
      ++ (if showModifiedTime then ["Data last modified: " ++ modTime] else []))

example : footerStr true false "p" "m" = "Print time: p" := by decide
example : footerStr false false "p" "m" = "" := by decide
example : footerStr true true "p" "m" = "Print time: p, Data last modified: m" := by decide

/-! ### Configuration and the `__main__` pipeline (lines 191-248) -/

/-- A YAML configuration value, restricted to the shapes the program
reads: a string, a list of column names, a list of merge rules, or a
boolean toggle. -/
inductive CVal where
  | s (v : String)
  | ls (v : List String)
  | mrs (v : List MergeRule)
  | b (v : Bool)
deriving DecidableEq, Repr

/-- The loaded configuration mapping, as an association list. -/
abbrev Config := List (String × CVal)

/-- The key set of the configuration (`config.keys()`). -/
def cfgKeys (c : Config) : List String :=
  c.map Prod.fst

/-- Lookup of a key's value. -/
def cfgFind (c : Config) (k : String) : Option CVal :=
  c.lookup k

/-- Lookup of a key expected to hold a string. -/
def cfgStr (c : Config) (k : String) : Option String :=
  match cfgFind c k with
  | some (CVal.s v) => some v
  | _ => none

/-- Lookup of a key expected to hold a list of column names. -/
def cfgList (c : Config) (k : String) : Option (List String) :=
  match cfgFind c k with
  | some (CVal.ls v) => some v
  | _ => none

/-- One output document handed to the dispatcher: its title
(`f"{session} {config['title-suffix']}"`), the session date label shown
under the main title, and the session sub-table rendered as the body. -/
structure Doc where
  title : String
  dateLabel : String
  body : Table
deriving DecidableEq, Repr

/-- The per-session dispatch loop (lines 168-173): each session's title
interpolates `config['title-suffix']`, which raises `KeyError` at the
first session when the key is absent; every session document carries the
same date label, computed once before the loop. -/
def docLoop (suffixV : Option String) (dateLabel : String) :
    List (Cell × Table) → Except String (List Doc)
  | [] => Except.ok []
  | g :: gs =>
    match suffixV with
    | none => Except.error "KeyError: title-suffix"
    | some suf =>
      match docLoop suffixV dateLabel gs with
      | Except.ok rest =>
        Except.ok ({ title := cellText g.1 ++ " " ++ suf
                     dateLabel := dateLabel
                     body := g.2 } :: rest)
      | Except.error m => Except.error m

/-- The `__main__` pipeline after config load, with the external
collaborators as parameters: `dir` is the listing of `search-dir`,
`readTable` the CSV/spreadsheet parser, and `dateRender` the
`date-format`/`dateparser` step of lines 229-232 applied to the raw
first-row date value. Steps in program order: the required-key check
(line 200), the source locator (line 202, where an empty result makes the
following `getmtime` raise), the session-date extraction
`roster_df[config.get("date-column")].values[0]` (line 228, raising
`KeyError` when the key or the column is absent and `IndexError` on an
empty table), the `modify-columns` loop (lines 234-244), and
`print_all_sessions` (line 246), which partitions on `class-column-name`,
projects to `columns-to-print`, and builds each session's title from
`title-suffix` (raising `KeyError` inside the per-session loop when that
key is absent). -/
def runMain (cfg : Config) (dir : List DirEntry) (readTable : String → Table)
    (dateRender : Cell → String) : Except String (List Doc) :=
  match check_for_required_config (cfgKeys cfg) with
  | Except.error m => Except.error m
  | Except.ok _ =>
  match cfgStr cfg "spreadsheet-pattern" with
  | none => Except.error "TypeError: spreadsheet-pattern"
  | some pat =>
  match find_latest_spreadsheet dir pat with
  | none => Except.error "FileNotFoundError: no roster found"
  | some newest =>
  match cfgStr cfg "date-column" with
  | none => Except.error "KeyError: None"
  | some dcol =>
  match colValues (readTable newest.name) dcol with
  | none => Except.error ("KeyError: " ++ dcol)
  | some dvals =>
  match dvals.head? with
  | none => Except.error "IndexError: index 0 is out of bounds"
  | some d0 =>
  match (match cfgFind cfg "modify-columns" with
         | none => Except.ok (readTable newest.name)
         | some (CVal.mrs rs) => applyRules (readTable newest.name) rs
         | some _ => Except.error "TypeError: modify-columns") with
  | Except.error m => Except.error m
  | Except.ok t' =>
  match cfgStr cfg "class-column-name" with
  | none => Except.error "TypeError: class-column-name"
  | some ccol =>
  match cfgList cfg "columns-to-print" with
  | none => Except.error "TypeError: columns-to-print"
  | some toPrint =>
  match partition t' ccol toPrint with
  | Except.error m => Except.error m
  | Except.ok groups =>
  docLoop (cfgStr cfg "title-suffix") (dateRender d0) groups

/-! ### Shared concrete examples -/

/-- A one-row table with columns First and Last. -/
def tAnnLee : Table :=
  { cols := ["First", "Last"], rows := [[some "Ann", some "Lee"]] }

/-- The spec's example rule merging First and Last into Name with a
space separator. -/
def ruleName : MergeRule :=
  { newName := "Name", oldColumns := ["First", "Last"], separator := " " }

/-- Result of applying `ruleName` to `tAnnLee`. -/
def tAnnLeeMerged : Table :=
  { cols := ["First", "Last", "Name"], rows := [[some "Ann", some "Lee", some "Ann Lee"]] }

/-! ### Claims -/

/-- C1, counterexample. The claim says a merge rule's source columns do
not remain in the table after the rule is applied; but applying the rule
merging First and Last into Name leaves both source columns in place: the
pandas assignment on line 241 only appends the new column and never drops
`old-columns`. -/
theorem C1_counterexample :
    ∃ t', applyRule tAnnLee ruleName = Except.ok t'
      ∧ "First" ∈ ruleName.oldColumns ∧ "First" ∈ t'.cols :=
  ⟨tAnnLeeMerged, rfl, by decide, by decide⟩

/-- C1, amended. After a successfully applied column merge rule, the
resulting table contains all the original columns unchanged and in order
— including every `source_column` of the rule, which is NOT removed —
with the new merged column appended at the end. -/
theorem C1_merge_keeps_all_columns (t : Table) (r : MergeRule) (t' : Table)
    (h : applyRule t r = Except.ok t') :
    t'.cols = t.cols ++ [r.newName] ∧ ∀ c ∈ r.oldColumns, c ∈ t'.cols := by
  unfold applyRule at h
  split at h
  · exact absurd h (by simp)
  · split at h
    · cases h
      refine ⟨rfl, fun c hc => ?_⟩
      rename_i hnc hall
      have hmem : c ∈ t.cols := by
        simpa using List.all_eq_true.mp hall c hc
      simp [hmem]
    · exact absurd h (by simp)

/-- C1, witness for the amended theorem at the First/Last example. -/
theorem C1_witness :
    tAnnLeeMerged.cols = tAnnLee.cols ++ [ruleName.newName]
      ∧ ∀ c ∈ ruleName.oldColumns, c ∈ tAnnLeeMerged.cols :=
  C1_merge_keeps_all_columns tAnnLee ruleName tAnnLeeMerged rfl

/-- C2. For every row of a table to which a merge rule applies
successfully, the appended merged cell is the row's `source_columns`
values, missing ones omitted, joined with the rule's separator; in
particular a row whose source values are all missing merges to the empty
string. -/
theorem C2_merged_values (t : Table) (r : MergeRule) (t' : Table)
    (h : applyRule t r = Except.ok t') :
    t'.rows = t.rows.map (fun row =>
        row ++ [some (String.intercalate r.separator
          ((r.oldColumns.map (rowVal t.cols row)).filterMap id))])
    ∧ ∀ row ∈ t.rows, (∀ c ∈ r.oldColumns, rowVal t.cols row c = none) →
        mergeValue r.separator (r.oldColumns.map (rowVal t.cols row)) = "" := by
  constructor
  · unfold applyRule at h
    split at h
    · exact absurd h (by simp)
    · split at h
      · cases h
        rfl
      · exact absurd h (by simp)
  · intro row _ hnone
    unfold mergeValue
    have : (r.oldColumns.map (rowVal t.cols row)).filterMap id = [] := by
      refine List.filterMap_eq_nil_iff.mpr ?_
      intro a ha
      rcases List.mem_map.mp ha with ⟨c, hc, rfl⟩
      exact hnone c hc
    rw [this]
    rfl

/-- C2, witness at the spec's First/Last example, both values present. -/
theorem C2_witness :
    tAnnLeeMerged.rows = tAnnLee.rows.map (fun row =>
        row ++ [some (String.intercalate ruleName.separator
          ((ruleName.oldColumns.map (rowVal tAnnLee.cols row)).filterMap id))])
    ∧ ∀ row ∈ tAnnLee.rows,
        (∀ c ∈ ruleName.oldColumns, rowVal tAnnLee.cols row c = none) →
        mergeValue ruleName.separator (ruleName.oldColumns.map (rowVal tAnnLee.cols row)) = "" :=
  C2_merged_values tAnnLee ruleName tAnnLeeMerged rfl

/-- C3. A merge rule whose `new-name` already names a column of the table
makes the `modify-columns` step raise (`ValueError`, modelling the fatal
`DuplicateColumnError`) without producing any modified table, and the
whole rule-application loop aborts with that error. -/
theorem C3_duplicate_new_name (t : Table) (r : MergeRule) (rest : List MergeRule)
    (h : r.newName ∈ t.cols) :
    (∃ m, applyRule t r = Except.error m)
      ∧ (∀ t', applyRule t r ≠ Except.ok t')
      ∧ ∃ m, applyRules t (r :: rest) = Except.error m := by
  have hc : t.cols.contains r.newName = true := by simpa using h
  have herr : applyRule t r = Except.error
      ("ValueError: new column name " ++ r.newName ++ " already exists in roster") := by
    unfold applyRule
    rw [if_pos hc]
  have herr2 : applyRules t (r :: rest) = Except.error
      ("ValueError: new column name " ++ r.newName ++ " already exists in roster") := by
    unfold applyRules
    rw [herr]
  exact ⟨⟨_, herr⟩, fun t' hk => by rw [herr] at hk; exact absurd hk (by simp), ⟨_, herr2⟩⟩

/-- C3, witness: merging into Name when Name is already a column fails. -/
theorem C3_witness :
    (∃ m, applyRule (Table.mk ["Name"] [[some "n"]]) ruleName = Except.error m)
      ∧ (∀ t', applyRule (Table.mk ["Name"] [[some "n"]]) ruleName ≠ Except.ok t')
      ∧ ∃ m, applyRules (Table.mk ["Name"] [[some "n"]]) [ruleName] = Except.error m :=
  C3_duplicate_new_name (Table.mk ["Name"] [[some "n"]]) ruleName [] (by decide)

/-- C4. Applying an empty `modify-columns` rule list leaves the table
unchanged: same columns in the same order, same cell values, same row
order. -/
theorem C4_empty_rules_identity (t : Table) : applyRules t [] = Except.ok t := rfl

/-- Characterization of the scanning loop once a best entry `b` is held:
either no later matching entry is strictly newer and `b` is returned, or
the result is the first matching entry that is strictly newer than `b`
and than everything before it, and at least as new as everything after
it. -/
theorem findLoop_some_char (s : String) (l : List DirEntry) :
    ∀ b : DirEntry,
      (findLoop s (some b) l = some b ∧
        ∀ g ∈ l.filter (fun f => strContains f.name s), g.mtime ≤ b.mtime) ∨
      (∃ f l₁ l₂, findLoop s (some b) l = some f ∧
        l.filter (fun g => strContains g.name s) = l₁ ++ f :: l₂ ∧
        b.mtime < f.mtime ∧ (∀ g ∈ l₁, g.mtime < f.mtime) ∧
        ∀ g ∈ l₂, g.mtime ≤ f.mtime) := by
  induction l with
  | nil =>
    intro b
    left
    exact ⟨rfl, by simp⟩
  | cons a l' ih =>
    intro b
    cases ha : strContains a.name s with
    | false =>
      have hstep : findLoop s (some b) (a :: l') = findLoop s (some b) l' := by
        simp [findLoop, ha]
      have hfil : (a :: l').filter (fun f => strContains f.name s)
          = l'.filter (fun f => strContains f.name s) := by
        simp [List.filter_cons, ha]
      rw [hstep, hfil]
      exact ih b
    | true =>
      have hfil : (a :: l').filter (fun f => strContains f.name s)
          = a :: l'.filter (fun f => strContains f.name s) := by
        simp [List.filter_cons, ha]
      rw [hfil]
      by_cases hab : a.mtime > b.mtime
      · have hstep : findLoop s (some b) (a :: l') = findLoop s (some a) l' := by
          simp [findLoop, ha, hab]
        rw [hstep]
        rcases ih a with ⟨h1, h2⟩ | ⟨f, l₁, l₂, h1, h2, h3, h4, h5⟩
        · right
          exact ⟨a, [], l'.filter (fun f => strContains f.name s), h1, rfl, hab, by simp, h2⟩
        · right
          refine ⟨f, a :: l₁, l₂, h1, by rw [h2, List.cons_append], lt_trans hab h3, ?_, h5⟩
          intro g hg
          rcases List.mem_cons.mp hg with rfl | hg'
          · exact h3
          · exact h4 g hg'
      · have hstep : findLoop s (some b) (a :: l') = findLoop s (some b) l' := by
          simp [findLoop, ha, hab]
        rw [hstep]
        have hab' : a.mtime ≤ b.mtime := le_of_not_lt hab
        rcases ih b with ⟨h1, h2⟩ | ⟨f, l₁, l₂, h1, h2, h3, h4, h5⟩
        · left
          refine ⟨h1, ?_⟩
          intro g hg
          rcases List.mem_cons.mp hg with rfl | hg'
          · exact hab'
          · exact h2 g hg'
        · right
          refine ⟨f, a :: l₁, l₂, h1, by rw [h2, List.cons_append], h3, ?_, h5⟩
          intro g hg
          rcases List.mem_cons.mp hg with rfl | hg'
          · exact lt_of_le_of_lt hab' h3
          · exact h4 g hg'

/-- Characterization of the whole scan starting from the empty
`newest_file`: either no entry matches and nothing is returned, or the
returned entry is a matching one strictly newer than every matching entry
listed before it and at least as new as every matching entry after it. -/
theorem findLoop_none_char (s : String) (l : List DirEntry) :
    (findLoop s none l = none ∧ l.filter (fun f => strContains f.name s) = []) ∨
    (∃ f l₁ l₂, findLoop s none l = some f ∧
      l.filter (fun g => strContains g.name s) = l₁ ++ f :: l₂ ∧
      (∀ g ∈ l₁, g.mtime < f.mtime) ∧ ∀ g ∈ l₂, g.mtime ≤ f.mtime) := by
  induction l with
  | nil =>
    left
    exact ⟨rfl, rfl⟩
  | cons a l' ih =>
    cases ha : strContains a.name s with
    | false =>
      have hstep : findLoop s none (a :: l') = findLoop s none l' := by
        simp [findLoop, ha]
      have hfil : (a :: l').filter (fun f => strContains f.name s)
          = l'.filter (fun f => strContains f.name s) := by
        simp [List.filter_cons, ha]
      rw [hstep, hfil]
      exact ih
    | true =>
      have hstep : findLoop s none (a :: l') = findLoop s (some a) l' := by
        simp [findLoop, ha]
      have hfil : (a :: l').filter (fun f => strContains f.name s)
          = a :: l'.filter (fun f => strContains f.name s) := by
        simp [List.filter_cons, ha]
      rw [hstep, hfil]
      rcases findLoop_some_char s l' a with ⟨h1, h2⟩ | ⟨f, l₁, l₂, h1, h2, h3, h4, h5⟩
      · right
        exact ⟨a, [], l'.filter (fun f => strContains f.name s), h1, rfl, by simp, h2⟩
      · right
        refine ⟨f, a :: l₁, l₂, h1, by rw [h2, List.cons_append], ?_, h5⟩
        intro g hg
        rcases List.mem_cons.mp hg with rfl | hg'
        · exact h3
        · exact h4 g hg'

/-- C5. The Source Locator considers exactly the directory entries whose
name contains the pattern as a case-sensitive substring: it returns no
entry exactly when there is no such candidate, and otherwise the returned
entry is a candidate with the greatest mtime that moreover precedes every
other candidate of equal mtime in listing order (every candidate listed
before it is strictly older). -/
theorem C5_source_locator (files : List DirEntry) (s : String) (_hs : s ≠ "") :
    (find_latest_spreadsheet files s = none ↔
      files.filter (fun f => strContains f.name s) = []) ∧
    ∀ f, find_latest_spreadsheet files s = some f →
      f ∈ files.filter (fun g => strContains g.name s) ∧
      (∀ g ∈ files.filter (fun g => strContains g.name s), g.mtime ≤ f.mtime) ∧
      ∃ l₁ l₂, files.filter (fun g => strContains g.name s) = l₁ ++ f :: l₂ ∧
        ∀ g ∈ l₁, g.mtime < f.mtime := by
  constructor
  · constructor
    · intro hn
      rcases findLoop_none_char s files with ⟨_, h2⟩ | ⟨f, l₁, l₂, h1, _, _, _⟩
      · exact h2
      · rw [show find_latest_spreadsheet files s = findLoop s none files from rfl] at hn
        rw [h1] at hn
        exact absurd hn (by simp)
    · intro hfil
      rcases findLoop_none_char s files with ⟨h1, _⟩ | ⟨f, l₁, l₂, _, h2, _, _⟩
      · exact h1
      · rw [hfil] at h2
        exact absurd h2 (by simp)
  · intro f hf
    rcases findLoop_none_char s files with ⟨h1, _⟩ | ⟨f', l₁, l₂, h1, h2, h3, h4⟩
    · rw [show find_latest_spreadsheet files s = findLoop s none files from rfl] at hf
      rw [h1] at hf
      exact absurd hf (by simp)
    · rw [show find_latest_spreadsheet files s = findLoop s none files from rfl] at hf
      rw [h1] at hf
      have hef : f' = f := by
        simpa using hf
      subst hef
      refine ⟨?_, ?_, l₁, l₂, h2, h3⟩
      · rw [h2]
        exact List.mem_append.mpr (Or.inr (List.mem_cons_self _ _))
      · intro g hg
        rw [h2] at hg
        rcases List.mem_append.mp hg with hg1 | hg2
        · exact le_of_lt (h3 g hg1)
        · rcases List.mem_cons.mp hg2 with rfl | hg3
          · exact le_refl _
          · exact h4 g hg3

/-- C5, witness: scanning a listing with an older and a newer roster file
and an unrelated newest file returns the newer roster file. -/
theorem C5_witness :
    (find_latest_spreadsheet
        [⟨"A_roster.csv", 10⟩, ⟨"notes.txt", 99⟩, ⟨"A_roster_v2.csv", 20⟩] "roster" = none ↔
      [⟨"A_roster.csv", 10⟩, ⟨"notes.txt", 99⟩,
        (⟨"A_roster_v2.csv", 20⟩ : DirEntry)].filter (fun f => strContains f.name "roster") = []) ∧
    ∀ f, find_latest_spreadsheet
        [⟨"A_roster.csv", 10⟩, ⟨"notes.txt", 99⟩, ⟨"A_roster_v2.csv", 20⟩] "roster" = some f →
      f ∈ [⟨"A_roster.csv", 10⟩, ⟨"notes.txt", 99⟩,
            (⟨"A_roster_v2.csv", 20⟩ : DirEntry)].filter (fun g => strContains g.name "roster") ∧
      (∀ g ∈ [⟨"A_roster.csv", 10⟩, ⟨"notes.txt", 99⟩,
            (⟨"A_roster_v2.csv", 20⟩ : DirEntry)].filter (fun g => strContains g.name "roster"),
          g.mtime ≤ f.mtime) ∧
      ∃ l₁ l₂, [⟨"A_roster.csv", 10⟩, ⟨"notes.txt", 99⟩,
            (⟨"A_roster_v2.csv", 20⟩ : DirEntry)].filter (fun g => strContains g.name "roster")
          = l₁ ++ f :: l₂ ∧ ∀ g ∈ l₁, g.mtime < f.mtime :=
  C5_source_locator
    [⟨"A_roster.csv", 10⟩, ⟨"notes.txt", 99⟩, ⟨"A_roster_v2.csv", 20⟩] "roster" (by decide)

/-- The fold underlying `uniqueVals` keeps the accumulator duplicate-free
and collects exactly the values of the accumulator and of the list. -/
theorem uniqueVals_fold_char (l : List Cell) :
    ∀ acc : List Cell, acc.Nodup →
      (l.foldl (fun acc v => if acc.contains v then acc else acc ++ [v]) acc).Nodup ∧
      ∀ v, v ∈ l.foldl (fun acc v => if acc.contains v then acc else acc ++ [v]) acc ↔
        v ∈ acc ∨ v ∈ l := by
  induction l with
  | nil =>
    intro acc hacc
    exact ⟨hacc, fun v => by simp⟩
  | cons a l' ih =>
    intro acc hacc
    rw [List.foldl_cons]
    by_cases hmem : a ∈ acc
    · have hc : acc.contains a = true := by simpa using hmem
      rw [if_pos hc]
      rcases ih acc hacc with ⟨ihn, ihm⟩
      refine ⟨ihn, fun v => ?_⟩
      rw [ihm v]
      constructor
      · rintro (hv | hv)
        · exact Or.inl hv
        · exact Or.inr (List.mem_cons_of_mem _ hv)
      · rintro (hv | hv)
        · exact Or.inl hv
        · rcases List.mem_cons.mp hv with rfl | hv'
          · exact Or.inl hmem
          · exact Or.inr hv'
    · have hc : ¬acc.contains a = true := by simpa using hmem
      rw [if_neg hc]
      have hnodup : (acc ++ [a]).Nodup := by simp [List.nodup_append, hacc, hmem]
      rcases ih (acc ++ [a]) hnodup with ⟨ihn, ihm⟩
      refine ⟨ihn, fun v => ?_⟩
      rw [ihm v]
      simp only [List.mem_append, List.mem_cons, List.not_mem_nil, or_false]
      exact or_assoc

/-- The first-seen deduplication is duplicate-free and keeps exactly the
values of its input. -/
theorem uniqueVals_char (l : List Cell) :
    (uniqueVals l).Nodup ∧ ∀ v, v ∈ uniqueVals l ↔ v ∈ l := by
  rcases uniqueVals_fold_char l [] List.nodup_nil with ⟨h1, h2⟩
  exact ⟨h1, fun v => (h2 v).trans (by simp)⟩

/-- C8, counterexample. The claim admits `columns` as an alternative to
`columns-to-print` (and `class_column_name` as an alternative to
`class-column-name`), but `check_for_required_config` demands the literal
key `columns-to-print`: a configuration with all four keys of the claim's
disjunctive reading, using `columns`, still fails the check. -/
theorem C8_counterexample :
    ("spreadsheet-pattern" ∈ (["spreadsheet-pattern", "search-dir", "columns",
        "class-column-name"] : List String) ∧
     "search-dir" ∈ (["spreadsheet-pattern", "search-dir", "columns",
        "class-column-name"] : List String) ∧
     ("columns-to-print" ∈ (["spreadsheet-pattern", "search-dir", "columns",
          "class-column-name"] : List String) ∨
      "columns" ∈ (["spreadsheet-pattern", "search-dir", "columns",
          "class-column-name"] : List String)) ∧
     ("class-column-name" ∈ (["spreadsheet-pattern", "search-dir", "columns",
          "class-column-name"] : List String) ∨
      "class_column_name" ∈ (["spreadsheet-pattern", "search-dir", "columns",
          "class-column-name"] : List String))) ∧
    ∃ m, check_for_required_config ["spreadsheet-pattern", "search-dir", "columns",
        "class-column-name"] = Except.error m :=
  ⟨by decide, "Required config `columns-to-print` not found, check that file "
      ++ "at CONFIG_FILE contains key", rfl⟩

/-- C8, amended. The required-key check passes exactly when the
configuration contains all four literal keys `spreadsheet-pattern`,
`columns-to-print`, `class-column-name` and `search-dir` (no alternative
spellings are accepted); when it fails, the whole pipeline aborts with
that error before any processing of the roster begins (the check is the
first step of `__main__` after config load). -/
theorem C8_required_keys (cfg : Config) :
    (check_for_required_config (cfgKeys cfg) = Except.ok () ↔
      ("spreadsheet-pattern" ∈ cfgKeys cfg ∧ "columns-to-print" ∈ cfgKeys cfg ∧
       "class-column-name" ∈ cfgKeys cfg ∧ "search-dir" ∈ cfgKeys cfg)) ∧
    ∀ m (dir : List DirEntry) (readTable : String → Table) (dateRender : Cell → String),
      check_for_required_config (cfgKeys cfg) = Except.error m →
      runMain cfg dir readTable dateRender = Except.error m := by
  constructor
  · constructor
    · intro hok
      unfold check_for_required_config at hok
      rcases hfind : requiredKeys.find? (fun k => !(cfgKeys cfg).contains k) with _ | k
      · have hnone := List.find?_eq_none.mp hfind
        have hmem : ∀ k ∈ requiredKeys, k ∈ cfgKeys cfg := by
          intro k hk
          have := hnone k hk
          simpa using this
        exact ⟨hmem _ (by decide), hmem _ (by decide), hmem _ (by decide), hmem _ (by decide)⟩
      · rw [hfind] at hok
        exact absurd hok (by simp)
    · rintro ⟨h1, h2, h3, h4⟩
      unfold check_for_required_config
      rcases hfind : requiredKeys.find? (fun k => !(cfgKeys cfg).contains k) with _ | k
      · rfl
      · have hk := List.find?_some hfind
        have hmem := List.mem_of_find?_eq_some hfind
        have hkmem : k ∈ cfgKeys cfg := by
          unfold requiredKeys at hmem
          simp only [List.mem_cons, List.not_mem_nil, or_false] at hmem
          rcases hmem with rfl | rfl | rfl | rfl
          · exact h1
          · exact h2
          · exact h3
          · exact h4
        rw [show (cfgKeys cfg).contains k = true by simpa using hkmem] at hk
        exact absurd hk (by simp)
  · intro m dir readTable dateRender herr
    unfold runMain
    rw [herr]

/-- C8, witness: a configuration with `columns` instead of
`columns-to-print` makes the whole pipeline abort with the check's
error. -/
theorem C8_witness :
    (check_for_required_config
        (cfgKeys [("spreadsheet-pattern", CVal.s "roster"), ("search-dir", CVal.s "."),
          ("columns", CVal.ls ["Name"]), ("class-column-name", CVal.s "Class")])
        = Except.ok () ↔
      ("spreadsheet-pattern" ∈ cfgKeys [("spreadsheet-pattern", CVal.s "roster"),
          ("search-dir", CVal.s "."), ("columns", CVal.ls ["Name"]),
          ("class-column-name", CVal.s "Class")] ∧
       "columns-to-print" ∈ cfgKeys [("spreadsheet-pattern", CVal.s "roster"),
          ("search-dir", CVal.s "."), ("columns", CVal.ls ["Name"]),
          ("class-column-name", CVal.s "Class")] ∧
       "class-column-name" ∈ cfgKeys [("spreadsheet-pattern", CVal.s "roster"),
          ("search-dir", CVal.s "."), ("columns", CVal.ls ["Name"]),
          ("class-column-name", CVal.s "Class")] ∧
       "search-dir" ∈ cfgKeys [("spreadsheet-pattern", CVal.s "roster"),
          ("search-dir", CVal.s "."), ("columns", CVal.ls ["Name"]),
          ("class-column-name", CVal.s "Class")])) ∧
    ∀ m (dir : List DirEntry) (readTable : String → Table) (dateRender : Cell → String),
      check_for_required_config
          (cfgKeys [("spreadsheet-pattern", CVal.s "roster"), ("search-dir", CVal.s "."),
            ("columns", CVal.ls ["Name"]), ("class-column-name", CVal.s "Class")])
        = Except.error m →
      runMain [("spreadsheet-pattern", CVal.s "roster"), ("search-dir", CVal.s "."),
          ("columns", CVal.ls ["Name"]), ("class-column-name", CVal.s "Class")]
        dir readTable dateRender = Except.error m :=
  C8_required_keys [("spreadsheet-pattern", CVal.s "roster"), ("search-dir", CVal.s "."),
    ("columns", CVal.ls ["Name"]), ("class-column-name", CVal.s "Class")]

/-- C9. The footer string is the enabled segments joined by a comma and a
space: the print-time segment exactly when `show-print-date` is enabled,
followed by the data-modified segment exactly when `show-modified-time`
is enabled; both disabled leaves no footer text at all, and only
`show-print-date` enabled yields the print-time segment alone with no
comma-joined second segment. Both timestamps use the
`MM/DD/YY, HH:MM:SS` format. -/
theorem C9_footer (sp sm : Bool) (pt mt : DateTime) :
    (sp = false → sm = false →
      footerStr sp sm (fmtTimestamp pt) (fmtTimestamp mt) = "") ∧
    (sp = true → sm = false →
      footerStr sp sm (fmtTimestamp pt) (fmtTimestamp mt)
        = "Print time: " ++ fmtTimestamp pt) ∧
    (sp = false → sm = true →
      footerStr sp sm (fmtTimestamp pt) (fmtTimestamp mt)
        = "Data last modified: " ++ fmtTimestamp mt) ∧
    (sp = true → sm = true →
      footerStr sp sm (fmtTimestamp pt) (fmtTimestamp mt)
        = "Print time: " ++ fmtTimestamp pt ++ ", "
            ++ ("Data last modified: " ++ fmtTimestamp mt)) := by
  refine ⟨?_, ?_, ?_, ?_⟩ <;>
    · rintro rfl rfl
      rfl

/-- C9, witness: with only `show-print-date` enabled at the concrete
instant 10/12/26 09:05:00, the footer is exactly the print-time segment. -/
theorem C9_witness :
    (true = false → false = false →
      footerStr true false (fmtTimestamp ⟨10, 12, 26, 9, 5, 0⟩)
        (fmtTimestamp ⟨1, 2, 3, 4, 5, 6⟩) = "") ∧
    (true = true → false = false →
      footerStr true false (fmtTimestamp ⟨10, 12, 26, 9, 5, 0⟩)
        (fmtTimestamp ⟨1, 2, 3, 4, 5, 6⟩)
        = "Print time: " ++ fmtTimestamp ⟨10, 12, 26, 9, 5, 0⟩) ∧
    (true = false → false = true →
      footerStr true false (fmtTimestamp ⟨10, 12, 26, 9, 5, 0⟩)
        (fmtTimestamp ⟨1, 2, 3, 4, 5, 6⟩)
        = "Data last modified: " ++ fmtTimestamp ⟨1, 2, 3, 4, 5, 6⟩) ∧
    (true = true → false = true →
      footerStr true false (fmtTimestamp ⟨10, 12, 26, 9, 5, 0⟩)
        (fmtTimestamp ⟨1, 2, 3, 4, 5, 6⟩)
        = "Print time: " ++ fmtTimestamp ⟨10, 12, 26, 9, 5, 0⟩ ++ ", "
            ++ ("Data last modified: " ++ fmtTimestamp ⟨1, 2, 3, 4, 5, 6⟩)) :=
  C9_footer true false ⟨10, 12, 26, 9, 5, 0⟩ ⟨1, 2, 3, 4, 5, 6⟩

/-- A successfully applied merge rule preserves the number of rows. -/
theorem applyRule_rows_length (t : Table) (r : MergeRule) (t' : Table)
    (h : applyRule t r = Except.ok t') : t'.rows.length = t.rows.length := by
  unfold applyRule at h
  split at h
  · exact absurd h (by simp)
  · split at h
    · cases h
      exact List.length_map _ _
    · exact absurd h (by simp)

/-- A successfully applied rule list preserves the number of rows. -/
theorem applyRules_rows_length (rs : List MergeRule) :
    ∀ (t t' : Table), applyRules t rs = Except.ok t' → t'.rows.length = t.rows.length := by
  induction rs with
  | nil =>
    intro t t' h
    cases h
    rfl
  | cons r rs' ih =>
    intro t t' h
    unfold applyRules at h
    rcases hr : applyRule t r with m | t₁
    · rw [hr] at h
      exact absurd h (by simp)
    · rw [hr] at h
      rw [ih t₁ t' h]
      exact applyRule_rows_length t r t₁ hr

/-- The per-session loop yields one group per key when it succeeds. -/
theorem sessionLoop_length (t : Table) (classCol : String) (toPrint : List String) :
    ∀ (ks : List Cell) (gs : List (Cell × Table)),
      sessionLoop t classCol toPrint ks = Except.ok gs → gs.length = ks.length := by
  intro ks
  induction ks with
  | nil =>
    intro gs h
    cases h
    rfl
  | cons k ks' ih =>
    intro gs h
    unfold sessionLoop at h
    split at h
    · rcases hrec : sessionLoop t classCol toPrint ks' with m | rest
      · rw [hrec] at h
        exact absurd h (by simp)
      · rw [hrec] at h
        cases h
        simp [ih rest hrec]
    · exact absurd h (by simp)

/-- Every document produced by the dispatch loop carries the one date
label computed before the loop. -/
theorem docLoop_dateLabel (suffixV : Option String) (dl : String) :
    ∀ (gs : List (Cell × Table)) (docs : List Doc),
      docLoop suffixV dl gs = Except.ok docs → ∀ d ∈ docs, d.dateLabel = dl := by
  intro gs
  induction gs with
  | nil =>
    intro docs h d hd
    cases h
    exact absurd hd (List.not_mem_nil d)
  | cons g gs' ih =>
    intro docs h d hd
    unfold docLoop at h
    split at h
    · exact absurd h (by simp)
    · rename_i suf
      rcases hrec : docLoop (some suf) dl gs' with m | rest
      · rw [hrec] at h
        exact absurd h (by simp)
      · rw [hrec] at h
        cases h
        rcases List.mem_cons.mp hd with rfl | hd'
        · rfl
        · exact ih rest hrec d hd'

/-- C10. A run that gets as far as dispatching documents requires, beyond
the four checked keys, a `title-suffix` entry and a `date-column` entry
naming an existing column of the parsed table: whenever the pipeline
succeeds, both are present, the table has a first row, and every
session's document carries the same date label rendered from the
`date-column` value of that first row of the whole table — regardless of
the session's own date values; conversely an absent `title-suffix` or
`date-column` makes every run fail with a key lookup error. -/
theorem C10_title_suffix_date_column (cfg : Config) (dir : List DirEntry)
    (readTable : String → Table) (dateRender : Cell → String) :
    (∀ docs, runMain cfg dir readTable dateRender = Except.ok docs →
      (cfgStr cfg "title-suffix").isSome ∧
      ∃ pat newest dcol r0,
        cfgStr cfg "spreadsheet-pattern" = some pat ∧
        find_latest_spreadsheet dir pat = some newest ∧
        cfgStr cfg "date-column" = some dcol ∧
        dcol ∈ (readTable newest.name).cols ∧
        (readTable newest.name).rows.head? = some r0 ∧
        ∀ d ∈ docs, d.dateLabel
          = dateRender (rowVal (readTable newest.name).cols r0 dcol)) ∧
    (cfgStr cfg "title-suffix" = none →
      ∀ docs, runMain cfg dir readTable dateRender ≠ Except.ok docs) ∧
    (cfgStr cfg "date-column" = none →
      ∀ docs, runMain cfg dir readTable dateRender ≠ Except.ok docs) := by
  have hmain : ∀ docs, runMain cfg dir readTable dateRender = Except.ok docs →
      (cfgStr cfg "title-suffix").isSome ∧
      ∃ pat newest dcol r0,
        cfgStr cfg "spreadsheet-pattern" = some pat ∧
        find_latest_spreadsheet dir pat = some newest ∧
        cfgStr cfg "date-column" = some dcol ∧
        dcol ∈ (readTable newest.name).cols ∧
        (readTable newest.name).rows.head? = some r0 ∧
        ∀ d ∈ docs, d.dateLabel
          = dateRender (rowVal (readTable newest.name).cols r0 dcol) := by
    intro docs h
    unfold runMain at h
    split at h
    · exact absurd h (by simp)
    split at h
    · exact absurd h (by simp)
    rename_i pat hpat
    split at h
    · exact absurd h (by simp)
    rename_i newest hnewest
    split at h
    · exact absurd h (by simp)
    rename_i dcol hdcol
    split at h
    · exact absurd h (by simp)
    rename_i dvals hdvals
    split at h
    · exact absurd h (by simp)
    rename_i d0 hd0
    split at h
    · exact absurd h (by simp)
    rename_i t' hmod
    split at h
    · exact absurd h (by simp)
    rename_i ccol hccol
    split at h
    · exact absurd h (by simp)
    rename_i toPrint htoPrint
    split at h
    · exact absurd h (by simp)
    rename_i groups hpart
    -- facts about the date column
    have hcontains : (readTable newest.name).cols.contains dcol = true := by
      unfold colValues at hdvals
      by_cases hcd : (readTable newest.name).cols.contains dcol = true
      · exact hcd
      · rw [if_neg hcd] at hdvals
        exact absurd hdvals (by simp)
    have hdmem : dcol ∈ (readTable newest.name).cols := by simpa using hcontains
    have hdvals' : dvals
        = (readTable newest.name).rows.map
            (fun r => rowVal (readTable newest.name).cols r dcol) := by
      unfold colValues at hdvals
      rw [if_pos hcontains] at hdvals
      injection hdvals with hv
      exact hv.symm
    -- the first row exists and produces the one date value
    rcases hr0m : (readTable newest.name).rows.head? with _ | r0
    · rw [hdvals'] at hd0
      rw [List.head?_map, hr0m] at hd0
      exact absurd hd0 (by simp)
    have hd0v : d0 = rowVal (readTable newest.name).cols r0 dcol := by
      rw [hdvals', List.head?_map, hr0m] at hd0
      injection hd0 with hv
      exact hv.symm
    -- the table reaching the partitioner still has its rows
    have hrowsne : (readTable newest.name).rows ≠ [] := by
      intro hnil
      rw [hnil] at hr0m
      exact absurd hr0m (by simp)
    have ht'len : t'.rows.length = (readTable newest.name).rows.length := by
      split at hmod
      · cases hmod
        rfl
      · exact applyRules_rows_length _ _ _ hmod
      · exact absurd hmod (by simp)
    have ht'ne : t'.rows ≠ [] := by
      intro hnil
      rw [hnil] at ht'len
      rcases List.exists_cons_of_ne_nil hrowsne with ⟨r, rs, hrs⟩
      rw [hrs] at ht'len
      simp at ht'len
    -- the partitioner produced at least one group
    have hgne : groups ≠ [] := by
      unfold partition at hpart
      split at hpart
      · have hklen := sessionLoop_length t' ccol toPrint _ _ hpart
        have hkne : uniqueVals (t'.rows.map (fun r => rowVal t'.cols r ccol)) ≠ [] := by
          rcases List.exists_cons_of_ne_nil ht'ne with ⟨r, rs, hrs⟩
          have hv : rowVal t'.cols r ccol ∈ t'.rows.map (fun r => rowVal t'.cols r ccol) := by
            rw [hrs]
            exact List.mem_map_of_mem _ (List.mem_cons_self r rs)
          exact List.ne_nil_of_mem (((uniqueVals_char _).2 _).mpr hv)
        intro hnil
        rw [hnil] at hklen
        rcases List.exists_cons_of_ne_nil hkne with ⟨k, ks, hks⟩
        rw [hks] at hklen
        simp at hklen
      · exact absurd hpart (by simp)
    -- the dispatch loop ran at least once, so title-suffix was found
    have hsuf : (cfgStr cfg "title-suffix").isSome := by
      rcases List.exists_cons_of_ne_nil hgne with ⟨g, gs, hgs⟩
      rw [hgs] at h
      unfold docLoop at h
      rcases hsom : cfgStr cfg "title-suffix" with _ | suf
      · rw [hsom] at h
        exact absurd h (by simp)
      · simp [hsom]
    refine ⟨hsuf, pat, newest, dcol, r0, hpat, hnewest, hdcol, hdmem, hr0m, ?_⟩
    intro d hd
    rw [← hd0v]
    exact docLoop_dateLabel (cfgStr cfg "title-suffix") (dateRender d0) groups docs h d hd
  refine ⟨hmain, ?_, ?_⟩
  · intro hns docs hok
    rcases hmain docs hok with ⟨hsome, _⟩
    rw [hns] at hsome
    exact absurd hsome (by simp)
  · intro hnd docs hok
    rcases hmain docs hok with ⟨_, pat, newest, dcol, r0, _, _, hdc, _⟩
    rw [hnd] at hdc
    exact absurd hdc (by simp)

/-- C10, witness: a configuration with the four checked keys and a
date-column but no `title-suffix` can never produce documents. -/
theorem C10_witness :
    ∀ docs, runMain
        [("spreadsheet-pattern", CVal.s "roster"), ("columns-to-print", CVal.ls ["Name"]),
         ("class-column-name", CVal.s "Class"), ("search-dir", CVal.s "."),
         ("date-column", CVal.s "Date")]
        [⟨"a_roster.csv", 5⟩]
        (fun _ => { cols := ["Name", "Class", "Date"],
                    rows := [[some "x", some "A", some "Jan 1"]] })
        cellText
      ≠ Except.ok docs :=
  (C10_title_suffix_date_column
    [("spreadsheet-pattern", CVal.s "roster"), ("columns-to-print", CVal.ls ["Name"]),
     ("class-column-name", CVal.s "Class"), ("search-dir", CVal.s "."),
     ("date-column", CVal.s "Date")]
    [⟨"a_roster.csv", 5⟩]
    (fun _ => { cols := ["Name", "Class", "Date"],
                rows := [[some "x", some "A", some "Jan 1"]] })
    cellText).2.1 rfl
